import Mathlib

/-!
Verification of the PDF-chat retrieval-augmented question-answering pipeline
(`pdf_chat_app.py`): text chunking, index bootstrap, session state, and the
question-handling flow. Text is modelled as a list of characters; external
services (the embedding/vector store, the language model, the PDF extractor)
are modelled as explicit outcome parameters.
-/

set_option autoImplicit false
set_option maxRecDepth 100000

namespace PdfChat

/-! ### Text chunking

The repository's `get_text_chunks` configures an external recursive splitter
with chunk size 1000, overlap 200 and separator priority paragraph, line,
word, character.  The splitter implementation itself is library code, not
part of this repository, so the chunk-production behaviour below is modelled
from the spec.
-/

/-- The contiguous segment of `text` of length at most `size` starting at
position `start`. -/
def slice (text : List Char) (start size : Nat) : List Char :=
  (text.drop start).take size

/-- Start positions of successive chunks: multiples of `step` below `len`. -/
def chunkStarts (len step : Nat) : List Nat :=
  (List.range ((len + step - 1) / step)).map (fun k => k * step)

/-- Error raised on an invalid chunking configuration. -/
inductive ChunkError where
  | invalidConfig
deriving DecidableEq

/-- Modelled from the spec: the chunk-production behaviour of the external
recursive text splitter (library code, absent from this repository), per the
overlap policy of the TextChunker contract: each chunk after the first begins
`overlap` units before the end of the previous chunk; chunk length is capped
at `maxSize`; `overlap < maxSize` is required, else `InvalidConfig`; empty
input yields an empty sequence. -/
def chunk (text : List Char) (maxSize overlap : Nat) :
    Except ChunkError (List (List Char)) :=
  if overlap < maxSize then
    Except.ok ((chunkStarts text.length (maxSize - overlap)).map
      (fun s => slice text s maxSize))
  else
    Except.error ChunkError.invalidConfig

/-- The configuration hard-coded in `get_text_chunks`: 1000-character chunks
with 200-character overlap. -/
def get_text_chunks (text : List Char) : Except ChunkError (List (List Char)) :=
  chunk text 1000 200

example : get_text_chunks [] = Except.ok [] := rfl

example :
    (get_text_chunks (List.replicate 1500 'a')).map (List.map List.length) =
      Except.ok [1000, 700] := rfl

/-! ### Separator-priority splitting

The separator list `["\n\n", "\n", " ", ""]` is configured in
`get_text_chunks`; the recursive descent through it is library code, modelled
from the spec below.
-/

/-- Split a character list at every occurrence of the separator sequence
`sep`.  Auxiliary recursion on explicit fuel; `acc` holds the current piece
reversed. -/
def splitOnSeqAux (sep : List Char) : Nat → List Char → List Char → List (List Char)
  | 0, acc, _ => [acc.reverse]
  | _ + 1, acc, [] => [acc.reverse]
  | fuel + 1, acc, c :: cs =>
    if sep ≠ [] ∧ (c :: cs).take sep.length = sep then
      acc.reverse :: splitOnSeqAux sep fuel [] ((c :: cs).drop sep.length)
    else
      splitOnSeqAux sep fuel (c :: acc) cs

/-- Split `l` on occurrences of the separator sequence `sep` (the list-level
counterpart of splitting a string on a substring). -/
def splitOnSeq (sep l : List Char) : List (List Char) :=
  splitOnSeqAux sep (l.length + 1) [] l

example : splitOnSeq ['\n'] "ab\ncd".toList = ["ab".toList, "cd".toList] := rfl
example : splitOnSeq ['\n', '\n'] "a\n\nb\nc".toList = ["a".toList, "b\nc".toList] := rfl

/-- A separator sequence occurs in the text exactly when splitting on it
produces at least two pieces. -/
def occursSep (sep text : List Char) : Prop :=
  2 ≤ (splitOnSeq sep text).length

instance (sep text : List Char) : Decidable (occursSep sep text) :=
  inferInstanceAs (Decidable (2 ≤ (splitOnSeq sep text).length))

/-- The separator priority list configured in `get_text_chunks`: paragraph
break, line break, space; the empty separator (raw characters) is the final
fallback of the recursion. -/
def sepsConfig : List (List Char) := [['\n', '\n'], ['\n'], [' ']]

/-- Fallback at the raw-character level: cut the text into windows of at most
`maxSize` characters. -/
def rawCut (maxSize : Nat) (text : List Char) : List (List Char) :=
  (chunkStarts text.length maxSize).map (fun s => slice text s maxSize)

/-- Modelled from the spec: the splitting policy of the external recursive
text splitter (library code, absent from this repository): break at the
highest-priority separator occurring in the text; pieces still above the size
limit are re-split with the remaining, lower-priority separators; text within
the limit is left whole; raw-character cuts are the last resort. -/
def recursiveSplit (maxSize : Nat) : List (List Char) → List Char → List (List Char)
  | [], text => rawCut maxSize text
  | sep :: rest, text =>
    if text.length ≤ maxSize then
      [text]
    else if occursSep sep text then
      ((splitOnSeq sep text).map (fun p =>
        if p.length ≤ maxSize then [p] else recursiveSplit maxSize rest p)).flatten
    else
      recursiveSplit maxSize rest text

example :
    recursiveSplit 2 sepsConfig "ab\ncd".toList = ["ab".toList, "cd".toList] := by decide

/-! ### Index bootstrap (get_vectorstore, lines 56 to 74)

The Pinecone service is modelled as the list of indexes it currently holds;
`list_indexes` and `create_index` mirror the two service calls made by
`get_vectorstore`.
-/

/-- An index held by the vector-store service. -/
structure IndexInfo where
  name : String
  dimension : Nat
  metric : String
deriving DecidableEq

/-- Names of the existing indexes (the `pc.list_indexes()` call). -/
def list_indexes (pc : List IndexInfo) : List String :=
  pc.map IndexInfo.name

/-- Creation of a new index (the `pc.create_index(...)` call). -/
def create_index (pc : List IndexInfo) (n : String) (d : Nat) (m : String) :
    List IndexInfo :=
  pc ++ [{ name := n, dimension := d, metric := m }]

/-- Result of the index-existence check: the service state afterwards and
whether a creation was performed. -/
structure EnsureResult where
  state : List IndexInfo
  created : Bool
deriving DecidableEq

/-- The index-existence check and creation of `get_vectorstore`: list the
existing indexes; if the name is absent, create the index, otherwise do
nothing. -/
def ensureIndex (pc : List IndexInfo) (n : String) (d : Nat) (m : String) :
    EnsureResult :=
  if n ∈ list_indexes pc then
    { state := pc, created := false }
  else
    { state := create_index pc n d m, created := true }

/-- The instantiation hard-coded in `get_vectorstore`: index name
pdf-chat-index, dimension 1536, cosine metric. -/
def get_vectorstore_ensure (pc : List IndexInfo) : EnsureResult :=
  ensureIndex pc "pdf-chat-index" 1536 "cosine"

/-! ### Session state and question handling -/

/-- One rendered question-answer pair of `chat_history`. -/
structure Turn where
  question : String
  answer : String
deriving DecidableEq

/-- The conversation chain built by `get_conversation_chain`; its
`ConversationBufferMemory` is the list of turns it has accumulated. -/
structure Chain where
  memory : List Turn
deriving DecidableEq

/-- The Streamlit session state: `conversation`, `chat_history`,
`processed`. -/
structure SessionState where
  conversation : Option Chain
  chat_history : List Turn
  processed : Bool
deriving DecidableEq

/-- The initial session state set up at the top of the script. -/
def initialSession : SessionState :=
  { conversation := none, chat_history := [], processed := false }

/-- Observable outcome of one `handle_userinput` call: the early-return
warning path, an uncaught exception from the chain call, or an answer. -/
inductive HandleResult where
  | notReady
  | generationFailed (cause : String)
  | answered (answer : String)
deriving DecidableEq

/-- The `handle_userinput` flow.  The language model behind the chain call is
an oracle `llm` giving the outcome of each successive call; the returned
`Nat` counts how many language-model calls were made.  When `conversation` is
`none` the function warns and returns at once.  Otherwise the chain is
invoked exactly once: on failure the exception propagates with the session
state untouched; on success the turn is appended to the displayed
`chat_history` and to the chain's own buffer memory. -/
def handle_userinput (st : SessionState) (q : String)
    (llm : Nat → Except String String) : SessionState × HandleResult × Nat :=
  match st.conversation with
  | none => (st, HandleResult.notReady, 0)
  | some chain =>
    match llm 0 with
    | Except.error e => (st, HandleResult.generationFailed e, 1)
    | Except.ok ans =>
      ({ st with
          conversation := some { memory := chain.memory ++ [{ question := q, answer := ans }] },
          chat_history := st.chat_history ++ [{ question := q, answer := ans }] },
        HandleResult.answered ans, 1)

/-! ### Document processing (main, lines 153 to 177) -/

/-- Outcome of the Process Documents button: success with the chunk count
reported by `st.info`, or the caught exception message shown by
`st.error`. -/
inductive ProcessResult where
  | success (chunkCount : Nat)
  | failure (message : String)
deriving DecidableEq

/-- The chain built by `get_conversation_chain`: a fresh
`ConversationBufferMemory`, hence an empty turn buffer. -/
def get_conversation_chain : Chain :=
  { memory := [] }

/-- The try-except body of the Process Documents branch of `main`.  The three
external stages (PDF text extraction, vector-store creation, chain
construction) are modelled by their outcome parameters; chunking runs through
`get_text_chunks`.  The first raising stage aborts the body, the exception is
caught and displayed, and no session field is assigned; only after every
stage succeeds are `conversation` and `processed` assigned. -/
def process_documents (st : SessionState)
    (extractOutcome : Except String (List Char))
    (storeOutcome : Except String Unit)
    (chainOutcome : Except String Unit) : SessionState × ProcessResult :=
  match extractOutcome with
  | Except.error e => (st, ProcessResult.failure e)
  | Except.ok raw =>
    match get_text_chunks raw with
    | Except.error _ => (st, ProcessResult.failure "invalid chunk configuration")
    | Except.ok chunks =>
      match storeOutcome with
      | Except.error e => (st, ProcessResult.failure e)
      | Except.ok _ =>
        match chainOutcome with
        | Except.error e => (st, ProcessResult.failure e)
        | Except.ok _ =>
          ({ st with conversation := some get_conversation_chain, processed := true },
            ProcessResult.success chunks.length)

/-! ### Concrete sessions and oracles used by witnesses -/

/-- A session in which documents have been processed: a chain with a fresh
memory is installed. -/
def readySession : SessionState :=
  { conversation := some { memory := [] }, chat_history := [], processed := true }

/-- A language model that answers every call. -/
def demoLLMOk : Nat → Except String String :=
  fun _ => Except.ok "an answer"

/-- A language model whose first call fails and whose second call would
succeed. -/
def demoLLMFail : Nat → Except String String :=
  fun n => if n = 0 then Except.error "rate limit" else Except.ok "recovered"

/-- A raw text of 1500 identical characters, used to exhibit a two-chunk
split. -/
def demoText1500 : List Char := List.replicate 1500 'a'

/-- A raw text of exactly 2500 characters, the end-to-end scenario input. -/
def demoText2500 : List Char := List.replicate 2500 'a'

/-- Session after a first successful processing run. -/
def demoSession1 : SessionState :=
  (process_documents initialSession (Except.ok ['d']) (Except.ok ()) (Except.ok ())).1

/-- Session after one answered question in `demoSession1`. -/
def demoSession2 : SessionState :=
  (handle_userinput demoSession1 "What is X?" demoLLMOk).1

/-! ### Claims about the index bootstrap -/

theorem mem_list_indexes_create (pc : List IndexInfo) (n : String) (d : Nat) (m : String) :
    n ∈ list_indexes (create_index pc n d m) := by
  simp [list_indexes, create_index]

/-- C2: the index-existence check and creation in get_vectorstore is
idempotent: the second of two calls with identical arguments creates nothing
and leaves the service state unchanged; across the two calls exactly one
creation happens when the index was absent; when the index already exists the
call performs no creation and succeeds with the state unchanged. -/
theorem ensureIndex_idempotent (pc : List IndexInfo) (n : String) (d : Nat) (m : String) :
    (ensureIndex (ensureIndex pc n d m).state n d m).created = false ∧
    (ensureIndex (ensureIndex pc n d m).state n d m).state = (ensureIndex pc n d m).state ∧
    (n ∉ list_indexes pc →
      (ensureIndex pc n d m).created.toNat
        + (ensureIndex (ensureIndex pc n d m).state n d m).created.toNat = 1) ∧
    (n ∈ list_indexes pc →
      (ensureIndex pc n d m).created = false ∧ (ensureIndex pc n d m).state = pc) := by
  by_cases h : n ∈ list_indexes pc
  · simp [ensureIndex, h]
  · simp [ensureIndex, h, mem_list_indexes_create]

/-- C2 witness: creating the hard-coded index from an empty service performs
exactly one creation. -/
theorem ensureIndex_idempotent_witness :
    "pdf-chat-index" ∉ list_indexes [] ∧
    ("pdf-chat-index" ∈ list_indexes (ensureIndex [] "pdf-chat-index" 1536 "cosine").state →
      True) ∧
    ((ensureIndex [] "pdf-chat-index" 1536 "cosine").created.toNat
      + (ensureIndex (ensureIndex [] "pdf-chat-index" 1536 "cosine").state
          "pdf-chat-index" 1536 "cosine").created.toNat = 1) := by
  refine ⟨by simp [list_indexes], fun _ => trivial, ?_⟩
  exact (ensureIndex_idempotent [] "pdf-chat-index" 1536 "cosine").2.2.1
    (by simp [list_indexes])

/-! ### Claims about question handling -/

/-- C3: a question asked before any successful ingest (conversation not yet
set) takes the fail-fast warning path and never yields an answer, empty or
otherwise. -/
theorem ask_before_ingest_not_ready (st : SessionState) (q : String)
    (llm : Nat → Except String String) (h : st.conversation = none) :
    handle_userinput st q llm = (st, HandleResult.notReady, 0) ∧
    ∀ a, (handle_userinput st q llm).2.1 ≠ HandleResult.answered a := by
  refine ⟨by simp [handle_userinput, h], ?_⟩
  intro a
  simp [handle_userinput, h]

/-- C3 witness: asking in the initial session fails fast. -/
theorem ask_before_ingest_not_ready_witness :
    initialSession.conversation = none ∧
    (handle_userinput initialSession "What is X?" demoLLMOk
        = (initialSession, HandleResult.notReady, 0) ∧
      ∀ a, (handle_userinput initialSession "What is X?" demoLLMOk).2.1
        ≠ HandleResult.answered a) :=
  ⟨rfl, ask_before_ingest_not_ready initialSession "What is X?" demoLLMOk rfl⟩

/-- C4: with a conversation installed, a failed language-model call leaves
the whole session state (in particular the turn log) unchanged and surfaces
the failure with its cause, while a successful call appends exactly one
turn. -/
theorem generation_failure_no_phantom_turn (st : SessionState) (c : Chain) (q : String)
    (llm : Nat → Except String String) (h : st.conversation = some c) :
    (∀ e, llm 0 = Except.error e →
      handle_userinput st q llm = (st, HandleResult.generationFailed e, 1)) ∧
    (∀ a, llm 0 = Except.ok a →
      (handle_userinput st q llm).1.chat_history.length = st.chat_history.length + 1) := by
  constructor
  · intro e he
    simp [handle_userinput, h, he]
  · intro a ha
    simp [handle_userinput, h, ha]

/-- C4 witness: in a ready session a first failed call changes nothing and a
successful oracle would append one turn. -/
theorem generation_failure_no_phantom_turn_witness :
    readySession.conversation = some { memory := [] } ∧
    ((∀ e, demoLLMFail 0 = Except.error e →
      handle_userinput readySession "What is X?" demoLLMFail
        = (readySession, HandleResult.generationFailed e, 1)) ∧
    (∀ a, demoLLMFail 0 = Except.ok a →
      (handle_userinput readySession "What is X?" demoLLMFail).1.chat_history.length
        = readySession.chat_history.length + 1)) :=
  ⟨rfl, generation_failure_no_phantom_turn readySession { memory := [] }
    "What is X?" demoLLMFail rfl⟩

/-- C5 counterexample: with a first call that fails and a second call that
would succeed, the pipeline surfaces the failure after exactly one
language-model call, so no automatic retry happens. -/
theorem llm_retry_counterexample :
    handle_userinput readySession "What is X?" demoLLMFail
      = (readySession, HandleResult.generationFailed "rate limit", 1) ∧
    (handle_userinput readySession "What is X?" demoLLMFail).2.2 ≠ 2 ∧
    demoLLMFail 1 = Except.ok "recovered" := by
  refine ⟨rfl, by decide, rfl⟩

/-- C5 amended: when the language-model call fails, the pipeline performs no
automatic retry: the failure is surfaced to the caller immediately after the
single call. -/
theorem llm_no_retry (st : SessionState) (c : Chain) (q e : String)
    (llm : Nat → Except String String) (hc : st.conversation = some c)
    (hf : llm 0 = Except.error e) :
    handle_userinput st q llm = (st, HandleResult.generationFailed e, 1) := by
  simp [handle_userinput, hc, hf]

/-- C5 witness: the no-retry behaviour at a concrete failing oracle. -/
theorem llm_no_retry_witness :
    readySession.conversation = some { memory := [] } ∧
    demoLLMFail 0 = Except.error "rate limit" ∧
    handle_userinput readySession "What is X?" demoLLMFail
      = (readySession, HandleResult.generationFailed "rate limit", 1) :=
  ⟨rfl, rfl, llm_no_retry readySession { memory := [] } "What is X?" "rate limit"
    demoLLMFail rfl rfl⟩

/-! ### Claims about document processing -/

/-- C8: when any processing stage raises, the caught exception leaves the
session state exactly as it was: the conversation keeps its prior value and
processed is not set. -/
theorem failed_process_preserves_state (st : SessionState)
    (ex : Except String (List Char)) (store chainO : Except String Unit) (e : String)
    (h : (process_documents st ex store chainO).2 = ProcessResult.failure e) :
    (process_documents st ex store chainO).1 = st ∧
    (process_documents st ex store chainO).1.conversation = st.conversation ∧
    (process_documents st ex store chainO).1.processed = st.processed := by
  rcases ex with e1 | raw
  · simp [process_documents]
  · rcases store with e2 | u
    · simp [process_documents, get_text_chunks, chunk]
    · rcases chainO with e3 | v
      · simp [process_documents, get_text_chunks, chunk]
      · exfalso
        simp [process_documents, get_text_chunks, chunk] at h

/-- C8 witness: a failing extraction stage leaves the initial session
untouched. -/
theorem failed_process_preserves_state_witness :
    (process_documents initialSession (Except.error "bad pdf")
        (Except.ok ()) (Except.ok ())).2 = ProcessResult.failure "bad pdf" ∧
    (process_documents initialSession (Except.error "bad pdf")
        (Except.ok ()) (Except.ok ())).1 = initialSession :=
  ⟨rfl, (failed_process_preserves_state initialSession (Except.error "bad pdf")
    (Except.ok ()) (Except.ok ()) "bad pdf" rfl).1⟩

/-- C9: a successful processing run in a session that already holds a
conversation installs a chain whose internal memory is empty, leaves the
displayed chat_history unchanged, and marks the session processed. -/
theorem reingest_resets_chain_memory (st : SessionState) (c : Chain) (raw : List Char)
    (_hprev : st.conversation = some c) :
    (process_documents st (Except.ok raw) (Except.ok ()) (Except.ok ())).1.conversation
      = some { memory := [] } ∧
    (process_documents st (Except.ok raw) (Except.ok ()) (Except.ok ())).1.chat_history
      = st.chat_history ∧
    (process_documents st (Except.ok raw) (Except.ok ()) (Except.ok ())).1.processed
      = true := by
  simp [process_documents, get_text_chunks, chunk, get_conversation_chain]

/-- C9 witness: after one processed batch and one answered question, a second
processing run resets the chain memory and keeps the rendered history. -/
theorem reingest_resets_chain_memory_witness :
    demoSession2.conversation
      = some { memory := [{ question := "What is X?", answer := "an answer" }] } ∧
    ((process_documents demoSession2 (Except.ok ['x']) (Except.ok ()) (Except.ok ())).1.conversation
        = some { memory := [] } ∧
      (process_documents demoSession2 (Except.ok ['x']) (Except.ok ()) (Except.ok ())).1.chat_history
        = demoSession2.chat_history ∧
      (process_documents demoSession2 (Except.ok ['x']) (Except.ok ()) (Except.ok ())).1.processed
        = true) :=
  ⟨rfl, reingest_resets_chain_memory demoSession2
    { memory := [{ question := "What is X?", answer := "an answer" }] } ['x'] rfl⟩

/-- C10: a question submitted while the session is not ready leaves every
session field exactly as it was and makes no external language-model call. -/
theorem not_ready_no_side_effects (st : SessionState) (q : String)
    (llm : Nat → Except String String) (h : st.conversation = none) :
    (handle_userinput st q llm).1 = st ∧
    (handle_userinput st q llm).1.chat_history = st.chat_history ∧
    (handle_userinput st q llm).2.2 = 0 := by
  simp [handle_userinput, h]

/-- C10 witness: the initial session is left untouched by a question. -/
theorem not_ready_no_side_effects_witness :
    initialSession.conversation = none ∧
    ((handle_userinput initialSession "What is X?" demoLLMFail).1 = initialSession ∧
      (handle_userinput initialSession "What is X?" demoLLMFail).1.chat_history
        = initialSession.chat_history ∧
      (handle_userinput initialSession "What is X?" demoLLMFail).2.2 = 0) :=
  ⟨rfl, not_ready_no_side_effects initialSession "What is X?" demoLLMFail rfl⟩

/-! ### Claims about chunk sizes and overlap -/

theorem start_lt_of_lt_numChunks {len step k : Nat} (hstep : 0 < step)
    (hk : k < (len + step - 1) / step) : k * step < len := by
  have h1 : ((len + step - 1) / step) * step ≤ len + step - 1 :=
    Nat.div_mul_le_self _ _
  have h2 : (k + 1) * step ≤ ((len + step - 1) / step) * step :=
    mul_le_mul_right' hk step
  have h3 : k * step + step ≤ len + step - 1 := by
    have h4 := le_trans h2 h1
    rwa [Nat.succ_mul] at h4
  omega

theorem get_text_chunks_eq (text : List Char) :
    get_text_chunks text =
      Except.ok ((chunkStarts text.length 800).map fun s => slice text s 1000) := by
  simp [get_text_chunks, chunk]

/-- C1: with the configuration hard-coded in get_text_chunks (maxSize 1000,
overlap 200), every chunk has length at most 1000 (so in particular every
chunk except possibly the last), and each pair of consecutive chunks shares a
non-empty common region, a suffix of the earlier chunk equal to a prefix of
the later chunk, of length min 200 (length of the later chunk), hence at most
200. -/
theorem chunk_size_and_overlap (text : List Char) (chunks : List (List Char))
    (hok : get_text_chunks text = Except.ok chunks) :
    (∀ c ∈ chunks, c.length ≤ 1000) ∧
    (∀ i, (hi : i + 1 < chunks.length) →
      0 < min 200 chunks[i + 1].length ∧
      min 200 chunks[i + 1].length ≤ 200 ∧
      chunks[i + 1].take (min 200 chunks[i + 1].length) ≠ [] ∧
      List.IsSuffix (chunks[i + 1].take (min 200 chunks[i + 1].length)) chunks[i]) := by
  rw [get_text_chunks_eq] at hok
  obtain rfl := Except.ok.inj hok
  constructor
  · intro c hc
    obtain ⟨s, _, rfl⟩ := List.mem_map.mp hc
    exact List.length_take_le 1000 (text.drop s)
  · intro i hi
    have hlenc :
        ((chunkStarts text.length 800).map fun s => slice text s 1000).length
          = (text.length + 800 - 1) / 800 := by
      simp [chunkStarts]
    have hN : i + 1 < (text.length + 800 - 1) / 800 := by rw [← hlenc]; exact hi
    have hi1 : (i + 1) * 800 < text.length :=
      start_lt_of_lt_numChunks (by norm_num) hN
    have hs800 : i * 800 + 800 < text.length := by rwa [Nat.succ_mul] at hi1
    have hgA :
        ((chunkStarts text.length 800).map fun s => slice text s 1000)[i + 1]
          = slice text (i * 800 + 800) 1000 := by
      simp [chunkStarts, Nat.succ_mul]
    have hgB :
        ((chunkStarts text.length 800).map fun s => slice text s 1000)[i]
          = slice text (i * 800) 1000 := by
      simp [chunkStarts]
    rw [hgA, hgB]
    have hlen2 : (slice text (i * 800 + 800) 1000).length
        = min 1000 (text.length - (i * 800 + 800)) := by
      simp [slice, List.length_take, List.length_drop]
    refine ⟨by omega, by omega, ?_, ?_⟩
    · apply List.ne_nil_of_length_pos
      rw [List.length_take]
      omega
    · refine ⟨slice text (i * 800) 800, ?_⟩
      have e1 : (slice text (i * 800 + 800) 1000).take
            (min 200 (slice text (i * 800 + 800) 1000).length)
          = (text.drop (i * 800 + 800)).take
            (min 200 (slice text (i * 800 + 800) 1000).length) := by
        simp only [slice, List.take_take]
        congr 1
        omega
      have hlen2' := hlen2
      simp only [slice] at hlen2'
      rw [e1, (List.drop_drop 800 (i * 800) text).symm]
      simp only [slice]
      rw [← List.take_add, List.take_eq_take, List.length_drop]
      omega

/-- C1 witness: a 1500-character text splits into a 1000-character chunk and
a 700-character chunk that share a 200-character boundary region. -/
theorem chunk_size_and_overlap_witness :
    get_text_chunks demoText1500
      = Except.ok [slice demoText1500 0 1000, slice demoText1500 800 1000] ∧
    ((∀ c ∈ [slice demoText1500 0 1000, slice demoText1500 800 1000], c.length ≤ 1000) ∧
      (∀ i, (hi : i + 1 < [slice demoText1500 0 1000, slice demoText1500 800 1000].length) →
        0 < min 200 [slice demoText1500 0 1000, slice demoText1500 800 1000][i + 1].length ∧
        min 200 [slice demoText1500 0 1000, slice demoText1500 800 1000][i + 1].length ≤ 200 ∧
        [slice demoText1500 0 1000, slice demoText1500 800 1000][i + 1].take
          (min 200 [slice demoText1500 0 1000, slice demoText1500 800 1000][i + 1].length) ≠ [] ∧
        List.IsSuffix
          ([slice demoText1500 0 1000, slice demoText1500 800 1000][i + 1].take
            (min 200 [slice demoText1500 0 1000, slice demoText1500 800 1000][i + 1].length))
          [slice demoText1500 0 1000, slice demoText1500 800 1000][i])) :=
  ⟨rfl, chunk_size_and_overlap demoText1500
    [slice demoText1500 0 1000, slice demoText1500 800 1000] rfl⟩

/-- C6: a raw text of exactly 2500 characters yields exactly 4 chunks with
boundaries at positions 0 to 1000, 800 to 1800, 1600 to 2500, and the last
chunk covering the remainder from 2400 to 2500. -/
theorem ingest_2500_boundaries (text : List Char) (h : text.length = 2500) :
    get_text_chunks text =
      Except.ok [slice text 0 1000, slice text 800 1000,
        slice text 1600 900, slice text 2400 100] ∧
    (slice text 0 1000).length = 1000 ∧ (slice text 800 1000).length = 1000 ∧
    (slice text 1600 900).length = 900 ∧ (slice text 2400 100).length = 100 := by
  have hstarts : chunkStarts 2500 800 = [0, 800, 1600, 2400] := by decide
  have e3 : slice text 1600 1000 = slice text 1600 900 := by
    simp only [slice]
    rw [List.take_eq_take, List.length_drop, h]
    omega
  have e4 : slice text 2400 1000 = slice text 2400 100 := by
    simp only [slice]
    rw [List.take_eq_take, List.length_drop, h]
    omega
  refine ⟨?_, ?_, ?_, ?_, ?_⟩
  · rw [get_text_chunks_eq, h, hstarts]
    simp [e3, e4]
  · simp [slice, h]
  · simp [slice, h]
  · simp [slice, h]
  · simp [slice, h]

/-- C6 witness: the boundaries at the concrete 2500-character text. -/
theorem ingest_2500_boundaries_witness :
    demoText2500.length = 2500 ∧
    (get_text_chunks demoText2500 =
      Except.ok [slice demoText2500 0 1000, slice demoText2500 800 1000,
        slice demoText2500 1600 900, slice demoText2500 2400 100] ∧
    (slice demoText2500 0 1000).length = 1000 ∧
    (slice demoText2500 800 1000).length = 1000 ∧
    (slice demoText2500 1600 900).length = 900 ∧
    (slice demoText2500 2400 100).length = 100) :=
  ⟨by simp [demoText2500], ingest_2500_boundaries demoText2500 (by simp [demoText2500])⟩

/-! ### Claim about separator priority -/

theorem recursiveSplit_cons (maxSize : Nat) (sep : List Char)
    (rest : List (List Char)) (text : List Char) :
    recursiveSplit maxSize (sep :: rest) text =
      if text.length ≤ maxSize then [text]
      else if occursSep sep text then
        ((splitOnSeq sep text).map (fun p =>
          if p.length ≤ maxSize then [p] else recursiveSplit maxSize rest p)).flatten
      else recursiveSplit maxSize rest text := rfl

theorem flatten_map_singleton {α : Type} (l : List α) :
    (l.map (fun a => [a])).flatten = l := by
  induction l with
  | nil => rfl
  | cons a t ih => simp [ih]

/-- C7: the splitter honours the configured separator priority: whenever
every separator of higher priority than the i-th is absent from the text, the
i-th separator occurs, and each piece it produces is within the size limit,
the splitter cuts exactly at occurrences of the i-th separator. -/
theorem separator_priority (maxSize : Nat) (text : List Char) (i : Nat)
    (hi : i < sepsConfig.length) (hlong : maxSize < text.length)
    (hhigher : ∀ s ∈ sepsConfig.take i, ¬ occursSep s text)
    (hocc : occursSep sepsConfig[i] text)
    (hfit : ∀ p ∈ splitOnSeq sepsConfig[i] text, p.length ≤ maxSize) :
    recursiveSplit maxSize sepsConfig text = splitOnSeq sepsConfig[i] text := by
  have h0 : ¬ text.length ≤ maxSize := by omega
  have hi3 : i < 3 := by simpa [sepsConfig] using hi
  interval_cases i
  · simp only [sepsConfig, List.getElem_cons_zero] at hocc hfit ⊢
    rw [recursiveSplit_cons, if_neg h0, if_pos hocc]
    have hmap : (splitOnSeq ['\n', '\n'] text).map (fun p =>
          if p.length ≤ maxSize then [p]
          else recursiveSplit maxSize [['\n'], [' ']] p)
        = (splitOnSeq ['\n', '\n'] text).map (fun p => [p]) :=
      List.map_congr_left (fun p hp => if_pos (hfit p hp))
    rw [hmap, flatten_map_singleton]
  · have hno1 : ¬ occursSep ['\n', '\n'] text :=
      hhigher ['\n', '\n'] (by simp [sepsConfig])
    simp only [sepsConfig, List.getElem_cons_succ, List.getElem_cons_zero] at hocc hfit ⊢
    rw [recursiveSplit_cons, if_neg h0, if_neg hno1,
      recursiveSplit_cons, if_neg h0, if_pos hocc]
    have hmap : (splitOnSeq ['\n'] text).map (fun p =>
          if p.length ≤ maxSize then [p]
          else recursiveSplit maxSize [[' ']] p)
        = (splitOnSeq ['\n'] text).map (fun p => [p]) :=
      List.map_congr_left (fun p hp => if_pos (hfit p hp))
    rw [hmap, flatten_map_singleton]
  · have hno1 : ¬ occursSep ['\n', '\n'] text :=
      hhigher ['\n', '\n'] (by simp [sepsConfig])
    have hno2 : ¬ occursSep ['\n'] text :=
      hhigher ['\n'] (by simp [sepsConfig])
    simp only [sepsConfig, List.getElem_cons_succ, List.getElem_cons_zero] at hocc hfit ⊢
    rw [recursiveSplit_cons, if_neg h0, if_neg hno1,
      recursiveSplit_cons, if_neg h0, if_neg hno2,
      recursiveSplit_cons, if_neg h0, if_pos hocc]
    have hmap : (splitOnSeq [' '] text).map (fun p =>
          if p.length ≤ maxSize then [p]
          else recursiveSplit maxSize [] p)
        = (splitOnSeq [' '] text).map (fun p => [p]) :=
      List.map_congr_left (fun p hp => if_pos (hfit p hp))
    rw [hmap, flatten_map_singleton]

/-- C7 witness: a text with line breaks but no paragraph break is cut at the
line separator. -/
theorem separator_priority_witness :
    (2 < "ab\ncd".toList.length ∧
      (∀ s ∈ sepsConfig.take 1, ¬ occursSep s "ab\ncd".toList) ∧
      occursSep ['\n'] "ab\ncd".toList ∧
      (∀ p ∈ splitOnSeq ['\n'] "ab\ncd".toList, p.length ≤ 2)) ∧
    recursiveSplit 2 sepsConfig "ab\ncd".toList = splitOnSeq ['\n'] "ab\ncd".toList :=
  ⟨⟨by decide, by decide, by decide, by decide⟩,
    separator_priority 2 "ab\ncd".toList 1 (by decide) (by decide)
      (by decide) (by decide) (by decide)⟩

end PdfChat
